import Mathlib

/-!
Verification of the head-tracking pipeline in `src/main.js` of
headtrack-3d-window: per-frame viewer-position estimation from two eye
landmarks (depth from interpupillary spacing, exponential smoothing) and
the off-axis frustum construction.  Real-number arithmetic idealizes the
JavaScript floating-point arithmetic; the one place where IEEE-754
semantics is observable (division by a zero denominator) is modelled
explicitly with a case split.
-/

namespace HeadTrack

/-- Calibration constant `IPD_MM = 63` (src/main.js line 19). -/
def IPD_MM : ℝ := 63

/-- Calibration constant `SCREEN_WIDTH_M = 0.28` (src/main.js line 20). -/
def SCREEN_WIDTH_M : ℝ := 0.28

/-- Calibration constant `SCREEN_HEIGHT_M = 0.16` (src/main.js line 21). -/
def SCREEN_HEIGHT_M : ℝ := 0.16

/-- `LEFT_EYE_INDEX = 33` (src/main.js line 28). -/
def LEFT_EYE_INDEX : ℕ := 33

/-- `RIGHT_EYE_INDEX = 263` (src/main.js line 29). -/
def RIGHT_EYE_INDEX : ℕ := 263

/-- A MediaPipe landmark: normalized coordinates (the relative-depth
`z` field is carried along but never read by this pipeline). -/
structure Landmark where
  x : ℝ
  y : ℝ
  z : ℝ

instance : Inhabited Landmark := ⟨⟨0, 0, 0⟩⟩

/-- The mutable viewer-position record `{x, y, z}` in meters
(src/main.js lines 43-47). -/
structure ViewerPosition where
  x : ℝ
  y : ℝ
  z : ℝ

/-- Initial value of `viewerPosition` (src/main.js lines 43-47). -/
def viewerPositionInit : ViewerPosition := ⟨0, 0, 0.5⟩

/-- The depth estimate of src/main.js lines 147-148:
`ipdRatio = ipdPixels * videoWidth / (IPD_MM / 1000)` and
`estimatedZ = Math.max(0.2, Math.min(2.0, SCREEN_WIDTH_M / ipdRatio))`.
When the denominator `ipdRatio` is zero, the JavaScript division of the
positive constant `SCREEN_WIDTH_M` by `+0` evaluates to `+Infinity`,
`Math.min(2.0, +Infinity) = 2.0` and `Math.max(0.2, 2.0) = 2.0`; that
branch is spelled out here because real-number division by zero would
not reproduce it. -/
noncomputable def estimatedZ (ipdPixels videoWidth : ℝ) : ℝ :=
  let ipdRatio := ipdPixels * videoWidth / (IPD_MM / 1000)
  if ipdRatio = 0 then 2
  else max 0.2 (min 2 (SCREEN_WIDTH_M / ipdRatio))

/-- The smoothing constant `smoothing = 0.7` (src/main.js line 160). -/
noncomputable def smoothing : ℝ := 0.7

/-- One exponential-smoothing step,
`prev * smoothing + raw * (1 - smoothing)`, applied identically to each
of the three coordinates in src/main.js lines 161-163. -/
noncomputable def smoothStep (prev raw : ℝ) : ℝ :=
  prev * smoothing + raw * (1 - smoothing)

/-- `estimateViewerPosition` (src/main.js lines 129-166).  The `landmarks`
argument is `none` for a JavaScript `null`; `videoWidth` is the pixel
width read from the video element.  Frames that are absent or have fewer
than 478 landmarks return the previous position unchanged. -/
noncomputable def estimateViewerPosition
    (landmarks : Option (List Landmark)) (prev : ViewerPosition)
    (videoWidth : ℝ) : ViewerPosition :=
  match landmarks with
  | none => prev
  | some lms =>
    if lms.length < 478 then prev
    else
      let leftEye := lms.getD LEFT_EYE_INDEX default
      let rightEye := lms.getD RIGHT_EYE_INDEX default
      let dx := rightEye.x - leftEye.x
      let dy := rightEye.y - leftEye.y
      let ipdPixels := Real.sqrt (dx * dx + dy * dy)
      let z := estimatedZ ipdPixels videoWidth
      let centerX := (leftEye.x + rightEye.x) / 2
      let centerY := (leftEye.y + rightEye.y) / 2
      let x := (centerX - 0.5) * SCREEN_WIDTH_M * (z / 0.5)
      let y := (0.5 - centerY) * SCREEN_HEIGHT_M * (z / 0.5)
      { x := smoothStep prev.x x
        y := smoothStep prev.y y
        z := smoothStep prev.z z }

/-- The frustum record `(left, right, bottom, top, near, far)` produced
each frame by `updateCameraProjection`. -/
structure Frustum where
  left : ℝ
  right : ℝ
  bottom : ℝ
  top : ℝ
  near : ℝ
  far : ℝ

/-- The frustum-bound computation of `updateCameraProjection`
(src/main.js lines 294-318): `near = 0.01`, `far = 10`,
`halfWidth = SCREEN_WIDTH_M / 2`, `halfHeight = SCREEN_HEIGHT_M / 2`,
`distance = viewerPos.z`, and the four off-axis bounds. -/
noncomputable def updateCameraProjection (viewerPos : ViewerPosition) : Frustum :=
  let near := 0.01
  let far := 10
  let halfWidth := SCREEN_WIDTH_M / 2
  let halfHeight := SCREEN_HEIGHT_M / 2
  let distance := viewerPos.z
  { left := (-halfWidth - viewerPos.x) * near / distance
    right := (halfWidth - viewerPos.x) * near / distance
    bottom := (-halfHeight - viewerPos.y) * near / distance
    top := (halfHeight - viewerPos.y) * near / distance
    near := near
    far := far }

/-- Folding `estimateViewerPosition` over a sequence of per-frame inputs
(optional landmark frame, video pixel width), starting from the initial
`viewerPosition` of src/main.js lines 43-47.  This is the per-frame update
loop of `animate` restricted to the position state. -/
noncomputable def runFrames
    (inputs : List (Option (List Landmark) × ℝ)) : ViewerPosition :=
  inputs.foldl (fun pos inp => estimateViewerPosition inp.1 pos inp.2)
    viewerPositionInit

/-! ### Helper lemmas (shared) -/

lemma estimatedZ_mem (p w : ℝ) : 0.2 ≤ estimatedZ p w ∧ estimatedZ p w ≤ 2 := by
  unfold estimatedZ
  dsimp only
  split
  · norm_num
  · exact ⟨le_max_left _ _, max_le (by norm_num) (min_le_left _ _)⟩

lemma estimatedZ_of_ne (p w : ℝ) (h : p * w / (IPD_MM / 1000) ≠ 0) :
    estimatedZ p w
      = max 0.2 (min 2 (SCREEN_WIDTH_M / (p * w / (IPD_MM / 1000)))) := by
  unfold estimatedZ
  exact if_neg h

/-! ### Claim theorems -/

/-- Claim C1: for every viewer position with `z > 0`, the off-axis
frustum bounds computed by `updateCameraProjection` equal the
Kooima-style projection of the screen-rectangle corners through the eye
onto the near plane `0.01`: `left = (-halfWidth - x) * near / z`,
`right = (halfWidth - x) * near / z`, `bottom = (-halfHeight - y) * near / z`,
`top = (halfHeight - y) * near / z`, with `halfWidth = SCREEN_WIDTH_M / 2`
and `halfHeight = SCREEN_HEIGHT_M / 2`. -/
theorem updateCameraProjection_kooima (v : ViewerPosition) (hz : 0 < v.z) :
    (updateCameraProjection v).left
        = (-(SCREEN_WIDTH_M / 2) - v.x) * 0.01 / v.z ∧
    (updateCameraProjection v).right
        = (SCREEN_WIDTH_M / 2 - v.x) * 0.01 / v.z ∧
    (updateCameraProjection v).bottom
        = (-(SCREEN_HEIGHT_M / 2) - v.y) * 0.01 / v.z ∧
    (updateCameraProjection v).top
        = (SCREEN_HEIGHT_M / 2 - v.y) * 0.01 / v.z ∧
    (updateCameraProjection v).near = 0.01 :=
  ⟨rfl, rfl, rfl, rfl, rfl⟩

/-- Witness for C1 at the concrete viewer position `(0.3, 0.1, 0.5)`. -/
theorem updateCameraProjection_kooima_witness :
    (0 : ℝ) < (ViewerPosition.mk 0.3 0.1 0.5).z ∧
    ((updateCameraProjection ⟨0.3, 0.1, 0.5⟩).left
        = (-(SCREEN_WIDTH_M / 2) - (0.3 : ℝ)) * 0.01 / 0.5 ∧
      (updateCameraProjection ⟨0.3, 0.1, 0.5⟩).right
        = (SCREEN_WIDTH_M / 2 - (0.3 : ℝ)) * 0.01 / 0.5 ∧
      (updateCameraProjection ⟨0.3, 0.1, 0.5⟩).bottom
        = (-(SCREEN_HEIGHT_M / 2) - (0.1 : ℝ)) * 0.01 / 0.5 ∧
      (updateCameraProjection ⟨0.3, 0.1, 0.5⟩).top
        = (SCREEN_HEIGHT_M / 2 - (0.1 : ℝ)) * 0.01 / 0.5 ∧
      (updateCameraProjection ⟨0.3, 0.1, 0.5⟩).near = 0.01) :=
  ⟨by norm_num, updateCameraProjection_kooima ⟨0.3, 0.1, 0.5⟩ (by norm_num)⟩

/-- Claim C7: with the viewer exactly centered (`x = 0`, `y = 0`) and any
`z > 0`, the frustum computed by `updateCameraProjection` is symmetric:
`left = -right` and `bottom = -top`. -/
theorem updateCameraProjection_centered_symmetric (z : ℝ) (hz : 0 < z) :
    (updateCameraProjection ⟨0, 0, z⟩).left
        = -(updateCameraProjection ⟨0, 0, z⟩).right ∧
    (updateCameraProjection ⟨0, 0, z⟩).bottom
        = -(updateCameraProjection ⟨0, 0, z⟩).top := by
  unfold updateCameraProjection
  constructor <;> · dsimp only; ring

/-- Witness for C7 at `z = 0.5`. -/
theorem updateCameraProjection_centered_symmetric_witness :
    (0 : ℝ) < 0.5 ∧
    ((updateCameraProjection ⟨0, 0, 0.5⟩).left
        = -(updateCameraProjection ⟨0, 0, 0.5⟩).right ∧
      (updateCameraProjection ⟨0, 0, 0.5⟩).bottom
        = -(updateCameraProjection ⟨0, 0, 0.5⟩).top) :=
  ⟨by norm_num, updateCameraProjection_centered_symmetric 0.5 (by norm_num)⟩

/-- Claim C8: at constant depth `z > 0` and constant `y`, moving the
viewer laterally right (`x1 < x2`) strictly decreases both the `left`
and the `right` frustum bound computed by `updateCameraProjection`. -/
theorem updateCameraProjection_lateral_shift (x1 x2 y z : ℝ)
    (hz : 0 < z) (hx : x1 < x2) :
    (updateCameraProjection ⟨x2, y, z⟩).left
        < (updateCameraProjection ⟨x1, y, z⟩).left ∧
    (updateCameraProjection ⟨x2, y, z⟩).right
        < (updateCameraProjection ⟨x1, y, z⟩).right := by
  unfold updateCameraProjection
  dsimp only
  constructor <;>
  · rw [div_lt_div_iff₀ hz hz]
    nlinarith [mul_pos (sub_pos.mpr hx) hz]

/-- Witness for C8 at `x1 = 0`, `x2 = 0.1`, `y = 0`, `z = 0.5`. -/
theorem updateCameraProjection_lateral_shift_witness :
    (0 : ℝ) < 0.5 ∧ (0 : ℝ) < 0.1 ∧
    ((updateCameraProjection ⟨0.1, 0, 0.5⟩).left
        < (updateCameraProjection ⟨0, 0, 0.5⟩).left ∧
      (updateCameraProjection ⟨0.1, 0, 0.5⟩).right
        < (updateCameraProjection ⟨0, 0, 0.5⟩).right) :=
  ⟨by norm_num, by norm_num,
    updateCameraProjection_lateral_shift 0 0.1 0 0.5 (by norm_num) (by norm_num)⟩

/-- Claim C2 counterexample: with the two eye landmarks coincident (both
at `(0.5, 0.5)`, so `dx = dy = 0` and `ipdPixels = 0`) and video width
`1280`, the per-frame depth estimate of src/main.js line 148 equals the
upper clamp `2` (maxDepth), which is not the claimed `minDepth = 0.2`. -/
theorem estimatedZ_coincident_counterexample :
    estimatedZ (Real.sqrt ((0.5 - 0.5) * (0.5 - 0.5)
        + (0.5 - 0.5) * (0.5 - 0.5))) 1280 = 2 ∧
    (2 : ℝ) ≠ 0.2 := by
  constructor
  · unfold estimatedZ
    dsimp only
    rw [if_pos]
    norm_num [Real.sqrt_eq_zero']
  · norm_num

/-- Claim C2 (amended): the depth estimate is always in `[0.2, 2]`; there
is no epsilon guard on the denominator, and a zero `ipdPixels`
(coincident eye points) makes the denominator zero, the JavaScript
division yields `+Infinity`, and the `min`/`max` clamp produces
`z = 2` (maxDepth), never `NaN` or infinity. -/
theorem estimatedZ_clamped (ipdPixels videoWidth : ℝ) :
    (0.2 ≤ estimatedZ ipdPixels videoWidth
      ∧ estimatedZ ipdPixels videoWidth ≤ 2) ∧
    estimatedZ 0 videoWidth = 2 := by
  refine ⟨estimatedZ_mem ipdPixels videoWidth, ?_⟩
  unfold estimatedZ
  dsimp only
  rw [if_pos]
  norm_num

/-- Claim C3: when the landmark frame is absent (`null`) or has fewer
than 478 landmarks, `estimateViewerPosition` returns the previous
`ViewerPosition` with `x`, `y`, `z` all unchanged (the function is total:
no error is raised). -/
theorem estimateViewerPosition_no_update (prev : ViewerPosition)
    (videoWidth : ℝ) :
    estimateViewerPosition none prev videoWidth = prev ∧
    ∀ lms : List Landmark, lms.length < 478 →
      estimateViewerPosition (some lms) prev videoWidth = prev := by
  constructor
  · rfl
  · intro lms h
    simp only [estimateViewerPosition]
    rw [if_pos h]

/-- Witness for C3 at `prev = (1, 2, 3)`, width `1280`, and the empty
landmark list (length `0 < 478`). -/
theorem estimateViewerPosition_no_update_witness :
    estimateViewerPosition none ⟨1, 2, 3⟩ 1280 = ⟨1, 2, 3⟩ ∧
    estimateViewerPosition (some []) ⟨1, 2, 3⟩ 1280 = ⟨1, 2, 3⟩ :=
  ⟨(estimateViewerPosition_no_update ⟨1, 2, 3⟩ 1280).1,
    (estimateViewerPosition_no_update ⟨1, 2, 3⟩ 1280).2 [] (by norm_num)⟩

/-- Claim C5: one smoothing step `s * 0.7 + r * (1 - 0.7)` never
overshoots: the output lies between the previous smoothed value `s` and
the raw value `r` inclusive, for each coordinate independently. -/
theorem smoothStep_between (s r : ℝ) :
    min s r ≤ smoothStep s r ∧ smoothStep s r ≤ max s r := by
  unfold smoothStep smoothing
  rcases le_total s r with h | h
  · rw [min_eq_left h, max_eq_right h]
    constructor <;> nlinarith
  · rw [min_eq_right h, max_eq_left h]
    constructor <;> nlinarith

/-- Claim C6: with constant raw input `r`, a smoothing step multiplies
the distance to `r` by the smoothing factor `0.7`; and if the smoothed
value already equals `r`, one further step leaves it equal. -/
theorem smoothStep_contracts (s r : ℝ) :
    |smoothStep s r - r| = smoothing * |s - r| ∧
    (s = r → smoothStep s r = r) := by
  constructor
  · have h : smoothStep s r - r = smoothing * (s - r) := by
      unfold smoothStep smoothing; ring
    rw [h, abs_mul, abs_of_nonneg (by unfold smoothing; norm_num : (0:ℝ) ≤ smoothing)]
  · intro h
    subst h
    unfold smoothStep
    ring

/-- Witness for C6: the contraction identity at `s = 2`, `r = 1`, and the
fixed-point property at `s = r = 1`. -/
theorem smoothStep_contracts_witness :
    |smoothStep 2 1 - 1| = smoothing * |(2 : ℝ) - 1| ∧
    smoothStep 1 1 = 1 :=
  ⟨(smoothStep_contracts 2 1).1, (smoothStep_contracts 1 1).2 rfl⟩

/-- Claim C4: at fixed video width `> 0`, a larger planar eye-landmark
separation yields a depth estimate less than or equal to that of a
smaller separation, and strictly less when neither estimate sits at a
clamp bound. -/
theorem estimatedZ_antitone (videoWidth d1 d2 : ℝ)
    (hw : 0 < videoWidth) (h1 : 0 < d1) (h12 : d1 < d2) :
    estimatedZ d2 videoWidth ≤ estimatedZ d1 videoWidth ∧
    (0.2 < estimatedZ d2 videoWidth → estimatedZ d1 videoWidth < 2 →
      estimatedZ d2 videoWidth < estimatedZ d1 videoWidth) := by
  have hc : (0 : ℝ) < IPD_MM / 1000 := by unfold IPD_MM; norm_num
  have hS : (0 : ℝ) < SCREEN_WIDTH_M := by unfold SCREEN_WIDTH_M; norm_num
  have h2 : 0 < d2 := lt_trans h1 h12
  have hr1 : 0 < d1 * videoWidth / (IPD_MM / 1000) := by positivity
  have hr2 : 0 < d2 * videoWidth / (IPD_MM / 1000) := by positivity
  have hrlt : d1 * videoWidth / (IPD_MM / 1000)
      < d2 * videoWidth / (IPD_MM / 1000) :=
    (div_lt_div_iff_of_pos_right hc).mpr (mul_lt_mul_of_pos_right h12 hw)
  have hqlt : SCREEN_WIDTH_M / (d2 * videoWidth / (IPD_MM / 1000))
      < SCREEN_WIDTH_M / (d1 * videoWidth / (IPD_MM / 1000)) :=
    div_lt_div_of_pos_left hS hr1 hrlt
  rw [estimatedZ_of_ne d1 videoWidth (ne_of_gt hr1),
    estimatedZ_of_ne d2 videoWidth (ne_of_gt hr2)]
  set q1 := SCREEN_WIDTH_M / (d1 * videoWidth / (IPD_MM / 1000)) with hq1
  set q2 := SCREEN_WIDTH_M / (d2 * videoWidth / (IPD_MM / 1000)) with hq2
  constructor
  · exact max_le_max le_rfl (min_le_min le_rfl (le_of_lt hqlt))
  · intro hlow hhigh
    have hq2low : (0.2 : ℝ) < q2 := by
      rcases lt_max_iff.mp hlow with h | h
      · exact absurd h (by norm_num)
      · exact (lt_min_iff.mp h).2
    have hq1high : q1 < 2 := by
      have := max_lt_iff.mp hhigh
      rcases min_lt_iff.mp this.2 with h | h
      · exact absurd h (by norm_num)
      · exact h
    have hq2high : q2 < 2 := lt_trans hqlt hq1high
    have hq1low : (0.2 : ℝ) < q1 := lt_trans hq2low hqlt
    rw [min_eq_right (le_of_lt hq1high), max_eq_right (le_of_lt hq1low),
      min_eq_right (le_of_lt hq2high), max_eq_right (le_of_lt hq2low)]
    exact hqlt

/-- Witness for C4 at video width `1`, separations `0.01 < 0.02`; both
raw estimates (`1.764` and `0.882`) lie strictly inside the clamp range,
so the inequality is available (the strict part's hypotheses are part of
the theorem's conclusion). -/
theorem estimatedZ_antitone_witness :
    (0 : ℝ) < 1 ∧ (0 : ℝ) < 0.01 ∧ (0.01 : ℝ) < 0.02 ∧
    estimatedZ 0.02 1 ≤ estimatedZ 0.01 1 :=
  ⟨by norm_num, by norm_num, by norm_num,
    (estimatedZ_antitone 1 0.01 0.02 (by norm_num) (by norm_num)
      (by norm_num)).1⟩

lemma smoothStep_mem_interval (s r : ℝ) (h1 : 0.2 ≤ s) (h2 : s ≤ 2)
    (h3 : 0.2 ≤ r) (h4 : r ≤ 2) :
    0.2 ≤ smoothStep s r ∧ smoothStep s r ≤ 2 := by
  unfold smoothStep smoothing
  constructor <;> nlinarith

lemma estimateViewerPosition_z_mem (l : Option (List Landmark))
    (prev : ViewerPosition) (w : ℝ)
    (h1 : 0.2 ≤ prev.z) (h2 : prev.z ≤ 2) :
    0.2 ≤ (estimateViewerPosition l prev w).z ∧
      (estimateViewerPosition l prev w).z ≤ 2 := by
  cases l with
  | none => exact ⟨h1, h2⟩
  | some lms =>
    simp only [estimateViewerPosition]
    split
    · exact ⟨h1, h2⟩
    · exact smoothStep_mem_interval _ _ h1 h2 (estimatedZ_mem _ _).1
        (estimatedZ_mem _ _).2

lemma runFrames_loop_mem (inputs : List (Option (List Landmark) × ℝ))
    (pos : ViewerPosition) (h1 : 0.2 ≤ pos.z) (h2 : pos.z ≤ 2) :
    0.2 ≤ (inputs.foldl
        (fun p inp => estimateViewerPosition inp.1 p inp.2) pos).z ∧
      (inputs.foldl
        (fun p inp => estimateViewerPosition inp.1 p inp.2) pos).z ≤ 2 := by
  induction inputs generalizing pos with
  | nil => exact ⟨h1, h2⟩
  | cons a tl ih =>
    simp only [List.foldl_cons]
    obtain ⟨g1, g2⟩ := estimateViewerPosition_z_mem a.1 pos a.2 h1 h2
    exact ih _ g1 g2

/-- Claim C10: starting from the initial `viewerPosition` (`z = 0.5`),
after any sequence of frames the `z` coordinate stays in `[0.2, 2]`:
each per-frame estimate is clamped into that interval and the smoothing
step is a convex combination of two values in it.  Hence `z` is strictly
positive on every frame and the divisions by `distance = z` inside
`updateCameraProjection` are never divisions by zero. -/
theorem runFrames_z_invariant (inputs : List (Option (List Landmark) × ℝ)) :
    0.2 ≤ (runFrames inputs).z ∧ (runFrames inputs).z ≤ 2 ∧
      0 < (runFrames inputs).z ∧ (runFrames inputs).z ≠ 0 := by
  have h := runFrames_loop_mem inputs viewerPositionInit
    (by unfold viewerPositionInit; norm_num)
    (by unfold viewerPositionInit; norm_num)
  have hpos : (0 : ℝ) < (runFrames inputs).z :=
    lt_of_lt_of_le (by norm_num) h.1
  exact ⟨h.1, h.2, hpos, ne_of_gt hpos⟩

/-- The landmark frame of end-to-end scenario 2: 478 landmarks, the
left-eye index holding `(0.45, 0.5)`, the right-eye index `(0.55, 0.5)`,
all other slots an arbitrary filler point. -/
noncomputable def scenarioLandmark (i : Fin 478) : Landmark :=
  if i.val = LEFT_EYE_INDEX then ⟨0.45, 0.5, 0⟩
  else if i.val = RIGHT_EYE_INDEX then ⟨0.55, 0.5, 0⟩
  else ⟨0.5, 0.5, 0⟩

/-- Scenario 2 frame as a landmark list. -/
noncomputable def scenarioFrame : List Landmark := List.ofFn scenarioLandmark

/-- The raw (pre-smoothing) depth estimate of scenario 2: eye planar
distance `sqrt(0.1^2 + 0^2)` at video width 1280. -/
noncomputable def scenarioRawZ : ℝ :=
  estimatedZ (Real.sqrt ((0.55 - 0.45) * (0.55 - 0.45)
    + (0.5 - 0.5) * (0.5 - 0.5))) 1280

lemma scenarioFrame_length : scenarioFrame.length = 478 :=
  List.length_ofFn _

lemma scenarioFrame_getD (i : ℕ) (h : i < 478) :
    scenarioFrame.getD i default = scenarioLandmark ⟨i, h⟩ := by
  rw [scenarioFrame, List.getD_eq_getElem?_getD, List.getElem?_ofFn]
  unfold List.ofFnNthVal
  rw [dif_pos h]
  rfl

lemma scenarioFrame_leftEye :
    scenarioFrame.getD LEFT_EYE_INDEX default = ⟨0.45, 0.5, 0⟩ := by
  rw [scenarioFrame_getD LEFT_EYE_INDEX (by unfold LEFT_EYE_INDEX; norm_num)]
  unfold scenarioLandmark LEFT_EYE_INDEX
  norm_num

lemma scenarioFrame_rightEye :
    scenarioFrame.getD RIGHT_EYE_INDEX default = ⟨0.55, 0.5, 0⟩ := by
  rw [scenarioFrame_getD RIGHT_EYE_INDEX (by unfold RIGHT_EYE_INDEX; norm_num)]
  unfold scenarioLandmark LEFT_EYE_INDEX RIGHT_EYE_INDEX
  norm_num

/-- Claim C9: with default calibration, eyes at normalized positions
`(0.45, 0.5)` and `(0.55, 0.5)` and video width 1280, the raw depth
estimate lies in `[0.2, 2]` (it is exactly the lower clamp `0.2`), and
one smoothing step from the initial position `(0, 0, 0.5)` yields
`z = 0.5 * 0.7 + raw * 0.3`: the retained fraction of the old value is
exactly the smoothing factor. -/
theorem scenario2_depth_and_smoothing :
    (0.2 ≤ scenarioRawZ ∧ scenarioRawZ ≤ 2) ∧ scenarioRawZ = 0.2 ∧
    (estimateViewerPosition (some scenarioFrame) viewerPositionInit 1280).z
      = 0.5 * 0.7 + scenarioRawZ * 0.3 := by
  have hs : Real.sqrt ((0.55 - 0.45) * (0.55 - 0.45)
      + (0.5 - 0.5) * (0.5 - 0.5)) = 0.1 := by
    rw [show ((0.55 - 0.45) * (0.55 - 0.45)
        + (0.5 - 0.5) * (0.5 - 0.5) : ℝ) = 0.1 * 0.1 by norm_num]
    exact Real.sqrt_mul_self (by norm_num)
  refine ⟨estimatedZ_mem _ _, ?_, ?_⟩
  · unfold scenarioRawZ
    rw [hs, estimatedZ_of_ne _ _ (by unfold IPD_MM; norm_num)]
    rw [min_eq_right (by unfold SCREEN_WIDTH_M IPD_MM; norm_num),
      max_eq_left (by unfold SCREEN_WIDTH_M IPD_MM; norm_num)]
  · simp only [estimateViewerPosition]
    rw [if_neg (by rw [scenarioFrame_length]; norm_num)]
    dsimp only
    rw [scenarioFrame_leftEye, scenarioFrame_rightEye]
    unfold scenarioRawZ viewerPositionInit smoothStep smoothing
    dsimp only
    ring

end HeadTrack
